import Mathlib

/-!
Verification development for the SmartSchedule planner engine
(`src/SmartSchedule/planner_engine.py`).

The Python source is shallowly embedded below:

* clock times ("HH:MM", 24-hour — the system's documented clock-time
  format) are parsed to minutes since midnight;
* calendar instants are represented by `DateTime`, a proleptic-Gregorian
  ordinal day number (day 1 = 0001-01-01, matching Python's
  `date.toordinal`) plus seconds since midnight; all instants are in the
  single fixed operating zone (UTC+8), which the source normalizes to;
* Python `dict` records become structures; a key that may be absent is an
  `Option` field, and `dict.get` becomes `Option.getD`/`orElse`;
* an uncaught Python exception is modelled by `Except.error`; functions
  that cannot raise are total Lean functions;
* the human-readable note strings appended to `messages` are modelled by
  the structured `Note` type (the Python builds display strings from
  exactly these data), and the `{status, message}` tool results by
  `ToolResult` with a structured `Message`.
-/

namespace SmartSchedule

/-- Decidable equality for `Except`, used to evaluate the scheduler's
result type on concrete inputs. -/
instance {ε α : Type} [DecidableEq ε] [DecidableEq α] :
    DecidableEq (Except ε α) := fun x y =>
  match x, y with
  | .ok a, .ok b =>
    if h : a = b then isTrue (by rw [h])
    else isFalse (by intro hc; cases hc; exact h rfl)
  | .error a, .error b =>
    if h : a = b then isTrue (by rw [h])
    else isFalse (by intro hc; cases hc; exact h rfl)
  | .ok _, .error _ => isFalse (by intro hc; cases hc)
  | .error _, .ok _ => isFalse (by intro hc; cases hc)

/-- Numeric value of a decimal digit character. -/
def digitVal (c : Char) : Nat := c.toNat - 48

/-- Model of Python's `str.lower()`: per-character lowercasing (the
names in this system are ASCII). -/
def strLower (s : String) : String := ⟨s.data.map Char.toLower⟩

/-- The HH:MM restriction of the ISO clock-time parser, returning
minutes since midnight. It is used to embed the block-time computation
of `_generate_recurring_blocks` (lines 153–157): on HH:MM strings it
agrees with the full parser `time_fromisoformat` (`parseClock_agrees`),
and the embedding of the block arithmetic restricts block-time strings
to this documented clock format (spec interface: clock strings are
"HH:MM", 24-hour), since the source's sub-minute block arithmetic is
not modelled. `none` models the `ValueError` raised on a rejected
string. -/
def parseClock (s : String) : Option Nat :=
  match s.toList with
  | [h1, h2, c, m1, m2] =>
    if h1.isDigit && h2.isDigit && c == ':' && m1.isDigit && m2.isDigit then
      let h := 10 * digitVal h1 + digitVal h2
      let m := 10 * digitVal m1 + digitVal m2
      if h ≤ 23 && m ≤ 59 then some (60 * h + m) else none
    else none
  | _ => none

/-- A `datetime.time` value: hour, minute, second, microsecond (a parsed
UTC offset only affects acceptance, never the minute computation, so it
is validated during parsing and then dropped). -/
structure PyTime where
  hour : Nat
  minute : Nat
  second : Nat
  microsecond : Nat
  deriving DecidableEq, Repr

/-- Decimal value of a digit string. -/
def digitsToNat (cs : List Char) : Nat :=
  cs.foldl (fun acc c => 10 * acc + digitVal c) 0

/-- CPython's `_parse_hh_mm_ss_ff`: parses `HH[:MM[:SS[.fff[fff]]]]`
(components are two ASCII digits; a fraction of exactly 3 or 6 digits
may follow the seconds), returning (hour, minute, second, microsecond)
without range validation. -/
def parse_hh_mm_ss_ff : List Char → Option (Nat × Nat × Nat × Nat)
  | [h1, h2] =>
    if h1.isDigit && h2.isDigit then
      some (10 * digitVal h1 + digitVal h2, 0, 0, 0)
    else none
  | [h1, h2, c1, m1, m2] =>
    if h1.isDigit && h2.isDigit && c1 == ':' && m1.isDigit && m2.isDigit then
      some (10 * digitVal h1 + digitVal h2, 10 * digitVal m1 + digitVal m2, 0, 0)
    else none
  | [h1, h2, c1, m1, m2, c2, s1, s2] =>
    if h1.isDigit && h2.isDigit && c1 == ':' && m1.isDigit && m2.isDigit &&
       c2 == ':' && s1.isDigit && s2.isDigit then
      some (10 * digitVal h1 + digitVal h2, 10 * digitVal m1 + digitVal m2,
        10 * digitVal s1 + digitVal s2, 0)
    else none
  | h1 :: h2 :: c1 :: m1 :: m2 :: c2 :: s1 :: s2 :: c3 :: frac =>
    if h1.isDigit && h2.isDigit && c1 == ':' && m1.isDigit && m2.isDigit &&
       c2 == ':' && s1.isDigit && s2.isDigit && c3 == '.' &&
       frac.all (fun c => c.isDigit) &&
       (frac.length == 3 || frac.length == 6) then
      some (10 * digitVal h1 + digitVal h2, 10 * digitVal m1 + digitVal m2,
        10 * digitVal s1 + digitVal s2,
        (if frac.length == 3 then 1000 else 1) * digitsToNat frac)
    else none
  | _ => none

/-- Index of the first occurrence of a character. -/
def findCharIdx (c : Char) : List Char → Option Nat
  | [] => none
  | x :: xs => if x == c then some 0 else (findCharIdx c xs).map (· + 1)

/-- CPython's time-zone split in `_parse_isoformat_time`: the string is
cut at the first '-' if one occurs, else at the first '+'; the prefix
is the time part and the suffix (separator dropped) the offset part. -/
def splitAtTz (cs : List Char) : List Char × Option (List Char) :=
  match findCharIdx '-' cs with
  | some i => (cs.take i, some (cs.drop (i + 1)))
  | none =>
    match findCharIdx '+' cs with
    | some i => (cs.take i, some (cs.drop (i + 1)))
    | none => (cs, none)

/-- Model of `datetime.time.fromisoformat` on the documented (CPython
3.7–3.10) grammar `HH[:MM[:SS[.fff[fff]]]][±HH:MM[:SS[.ffffff]]]`:
strings of at least two characters, a time part validated by the
`time` constructor (hour ≤ 23, minute ≤ 59, second ≤ 59), and an
optional offset whose string length must be 5, 8 or 15 and whose
magnitude must be strictly below 24 hours (`timezone`'s range check).
`int()`'s tolerance of signs and whitespace inside two-digit slices is
outside the model (components are ASCII digits). `none` models the
`ValueError` raised on a rejected string. -/
def time_fromisoformat (s : String) : Option PyTime :=
  if s.toList.length < 2 then none
  else
    match parse_hh_mm_ss_ff (splitAtTz s.toList).1 with
    | none => none
    | some (h, m, sec, us) =>
      if h ≤ 23 && m ≤ 59 && sec ≤ 59 then
        match (splitAtTz s.toList).2 with
        | none => some ⟨h, m, sec, us⟩
        | some tzstr =>
          if tzstr.length == 5 || tzstr.length == 8 || tzstr.length == 15 then
            match parse_hh_mm_ss_ff tzstr with
            | none => none
            | some (th, tmi, tsec, tus) =>
              if th * 3600000000 + tmi * 60000000 + tsec * 1000000 + tus <
                  86400000000 then
                some ⟨h, m, sec, us⟩
              else none
          else none
      else none

/-- `_time_to_minutes`: `time.fromisoformat` then `hour * 60 + minute`
(seconds and microseconds are dropped); the `try/except ValueError` of
the source returns 0 on a rejected string (the function never
raises). -/
def time_to_minutes (time_str : String) : Nat :=
  match time_fromisoformat time_str with
  | some t => t.hour * 60 + t.minute
  | none => 0

/-- `_check_overlap`: half-open interval overlap on minute values. -/
def check_overlap (start1 end1 start2 end2 : Int) : Bool :=
  start1 < end2 && start2 < end1

/-- Gregorian leap-year test (as in Python's `calendar.isleap`). -/
def isLeapYear (y : Nat) : Bool :=
  y % 4 == 0 && (y % 100 != 0 || y % 400 == 0)

/-- Days in a month of the proleptic Gregorian calendar. -/
def daysInMonth (y m : Nat) : Nat :=
  match m with
  | 1 => 31 | 3 => 31 | 5 => 31 | 7 => 31 | 8 => 31 | 10 => 31 | 12 => 31
  | 4 => 30 | 6 => 30 | 9 => 30 | 11 => 30
  | 2 => if isLeapYear y then 29 else 28
  | _ => 0

/-- Days strictly before month `m` in year `y`. -/
def daysBeforeMonth (y m : Nat) : Nat :=
  let base :=
    match m with
    | 1 => 0 | 2 => 31 | 3 => 59 | 4 => 90 | 5 => 120 | 6 => 151
    | 7 => 181 | 8 => 212 | 9 => 243 | 10 => 273 | 11 => 304 | _ => 334
  if isLeapYear y && m > 2 then base + 1 else base

/-- Proleptic-Gregorian ordinal of a calendar date, matching Python's
`date.toordinal` (0001-01-01 is day 1). -/
def dateOrdinal (y m d : Nat) : Nat :=
  365 * (y - 1) + ((y - 1) / 4 - (y - 1) / 100) + (y - 1) / 400
    + daysBeforeMonth y m + d

/-- Weekday index of an ordinal day, matching Python's `date.weekday()`
(Monday = 0 … Sunday = 6; ordinal 1, 0001-01-01, was a Monday). -/
def weekdayIdx (ordinal : Nat) : Nat := (ordinal + 6) % 7

/-- Parse a "YYYY-MM-DD" date string (given as its character list) to
its ordinal day number; `none` models `ValueError`. -/
def parseDateChars (cs : List Char) : Option Nat :=
  match cs with
  | [y1, y2, y3, y4, c1, m1, m2, c2, d1, d2] =>
    if y1.isDigit && y2.isDigit && y3.isDigit && y4.isDigit &&
       c1 == '-' && m1.isDigit && m2.isDigit && c2 == '-' &&
       d1.isDigit && d2.isDigit then
      let y := 1000 * digitVal y1 + 100 * digitVal y2 + 10 * digitVal y3 + digitVal y4
      let m := 10 * digitVal m1 + digitVal m2
      let d := 10 * digitVal d1 + digitVal d2
      if 1 ≤ y && 1 ≤ m && m ≤ 12 && 1 ≤ d && d ≤ daysInMonth y m then
        some (dateOrdinal y m d)
      else none
    else none
  | _ => none

/-- Parse the time-of-day part of an ISO datetime ("HH:MM" or
"HH:MM:SS", given as its character list) to seconds since midnight. -/
def parseTimeOfDay (cs : List Char) : Option Nat :=
  match cs with
  | [h1, h2, c, m1, m2] =>
    if h1.isDigit && h2.isDigit && c == ':' && m1.isDigit && m2.isDigit then
      let h := 10 * digitVal h1 + digitVal h2
      let m := 10 * digitVal m1 + digitVal m2
      if h ≤ 23 && m ≤ 59 then some (3600 * h + 60 * m) else none
    else none
  | [h1, h2, c, m1, m2, c2, s1, s2] =>
    if h1.isDigit && h2.isDigit && c == ':' && m1.isDigit && m2.isDigit &&
       c2 == ':' && s1.isDigit && s2.isDigit then
      let h := 10 * digitVal h1 + digitVal h2
      let m := 10 * digitVal m1 + digitVal m2
      let sec := 10 * digitVal s1 + digitVal s2
      if h ≤ 23 && m ≤ 59 && sec ≤ 59 then some (3600 * h + 60 * m + sec) else none
    else none
  | _ => none

/-- A timezone-aware instant in the fixed UTC+8 operating zone:
ordinal calendar day plus seconds since midnight. -/
structure DateTime where
  day : Nat
  sec : Nat
  deriving DecidableEq, Repr

/-- "strictly before" on instants (Python `datetime` comparison). -/
def dtBefore (a b : DateTime) : Bool :=
  a.day < b.day || (a.day == b.day && a.sec < b.sec)

/-- Model of `datetime.fromisoformat` on "YYYY-MM-DD[THH:MM[:SS]]"
strings; `none` models `ValueError`. -/
def parseDatetime (s : String) : Option DateTime :=
  match List.splitOn 'T' s.toList with
  | [d] => (parseDateChars d).map (fun o => ⟨o, 0⟩)
  | [d, t] =>
    match parseDateChars d, parseTimeOfDay t with
    | some o, some sec => some ⟨o, sec⟩
    | _, _ => none
  | _ => none

/-- The deadline normalization used at both parse sites: if the string
has no 'T' separator (`len(s.split('T')) == 1`, equivalently
`'T' not in s`), append "T23:59:59". -/
def normalizeDeadline (s : String) : String :=
  if s.toList.contains 'T' then s else s ++ "T23:59:59"

/-- `SESSION_IDEAL_DURATION_MAP`, with hours converted to minutes
(3.0h = 180, 2.0h = 120, 1.0h = 60, 0.5h = 30). -/
def SESSION_IDEAL_DURATION_MAP : List (String × Nat) :=
  [("exam", 180), ("project", 120), ("quiz", 60),
   ("assignment", 60), ("seatwork", 30), ("default", 60)]

/-- Python `dict.get(k, default)` on an association-list dict model. -/
def dictGet (m : List (String × Nat)) (k : String) (default : Nat) : Nat :=
  ((m.find? (fun p => p.1 == k)).map (fun p => p.2)).getD default

/-- `DAY_OF_WEEK_MAP`: weekday index (0–6) to day name. -/
def DAY_OF_WEEK_MAP (i : Nat) : String :=
  match i with
  | 0 => "Monday" | 1 => "Tuesday" | 2 => "Wednesday" | 3 => "Thursday"
  | 4 => "Friday" | 5 => "Saturday" | 6 => "Sunday" | _ => ""

/-- `DAY_MAP_TO_INDEX` as a dict model. -/
def DAY_MAP_TO_INDEX : List (String × Nat) :=
  [("Monday", 0), ("Tuesday", 1), ("Wednesday", 2), ("Thursday", 3),
   ("Friday", 4), ("Saturday", 5), ("Sunday", 6)]

/-- `DAY_MAP_TO_INDEX.get(d)` combined with the `d in DAY_MAP_TO_INDEX`
membership test of the comprehension at line 139. -/
def dayMapToIndex (d : String) : Option Nat :=
  (DAY_MAP_TO_INDEX.find? (fun p => p.1 == d)).map (fun p => p.2)

/-- A fixed weekly class record from `user_data["schedule"]`. -/
structure ClassEntry where
  day : String
  subject : String
  start_time : String
  end_time : String
  deriving DecidableEq, Repr

/-- A task/test record from `user_data["tasks"]`/`user_data["tests"]`.
Optional fields model keys that may be absent from the stored dict. -/
structure Item where
  name : String
  deadline : Option String
  date : Option String
  task_type : Option String
  test_type : Option String
  deriving DecidableEq, Repr

/-- A generated plan block (`generated_plan` entry). `start_time` and
`end_time` hold the minute-of-day values rendered by `strftime("%H:%M")`
in the source. -/
structure PlanBlock where
  date : Nat
  start_time : Int
  end_time : Int
  task : String
  completed : Bool
  deriving DecidableEq, Repr

/-- The per-user stored state read by the planner. -/
structure UserData where
  tasks : List Item
  tests : List Item
  schedule : List ClassEntry
  generated_plan : List PlanBlock
  deriving DecidableEq, Repr

/-- The tool-call arguments of `schedule_recurring_blocks`. -/
structure Args where
  item_name : String
  days : List String
  start_time : String
  end_time : String
  deriving DecidableEq, Repr

/-- A structured model of the human-readable strings appended to
`messages` by `_generate_recurring_blocks`. -/
inductive Note where
  /-- "Skipping {weekday name} block: Time slot has passed today." -/
  | pastTime (dayName : String)
  /-- "Skipping {date} block: Conflict with class {subject}." -/
  | conflict (date : Nat) (subject : Option String)
  /-- "Note: Block on {date} capped at {hours} hr(s) due to {type} limits." -/
  | capped (date : Nat) (allocatedMinutes : Int) (itemType : String)
  deriving DecidableEq, Repr

/-- A structured model of the `message` strings returned by
`schedule_recurring_blocks`. -/
inductive Message where
  /-- "Sorry, I couldn't find a task or test named ... ." -/
  | notFound (itemName : String)
  /-- "Internal Error: Could not parse task deadline." -/
  | internalError
  /-- "Study blocks for ... have been scheduled until the deadline." -/
  | scheduled (itemName : String)
  /-- "Study blocks scheduled with the following notes: ..." -/
  | scheduledWithNotes (itemName : String) (notes : List Note)
  deriving DecidableEq, Repr

/-- The `status` field of a tool result. -/
inductive Status where
  | success
  | error
  deriving DecidableEq, Repr

/-- The `{status, message}` dict returned by `schedule_recurring_blocks`. -/
structure ToolResult where
  status : Status
  message : Message
  deriving DecidableEq, Repr

/-- `_check_class_conflict`: walks the class list in input order,
considering only classes whose `day` equals the block date's weekday
name, and returns the first class whose time range overlaps the
proposed block range. -/
def check_class_conflict (blockDay : Nat) (block_start_min block_end_min : Int) :
    List ClassEntry → Bool × Option String
  | [] => (false, none)
  | cls :: rest =>
    if cls.day == DAY_OF_WEEK_MAP (weekdayIdx blockDay) then
      if check_overlap block_start_min block_end_min
          (time_to_minutes cls.start_time) (time_to_minutes cls.end_time) then
        (true, some cls.subject)
      else check_class_conflict blockDay block_start_min block_end_min rest
    else check_class_conflict blockDay block_start_min block_end_min rest

/-- The body of the day loop of `_generate_recurring_blocks` for one
candidate day `d`: skip a day whose weekday is not requested; otherwise
parse the block times (`time.fromisoformat`, whose `ValueError` on a
malformed string is uncaught — modelled by `.error`), apply the
past-time check, the class-conflict check and the session cap, and emit
at most one block. -/
def processDay (classes : List ClassEntry) (targetIdx : List Nat)
    (itemName itemType : String) (idealMin : Nat) (reqS reqE : Nat)
    (start_time end_time : String) (now_dt : DateTime) (d : Nat) :
    Except Unit (List PlanBlock × List Note) :=
  if weekdayIdx d ∈ targetIdx then
    match parseClock start_time, parseClock end_time with
    | some bs, some be =>
      if d == now_dt.day && be * 60 < now_dt.sec then
        .ok ([], [.pastTime (DAY_OF_WEEK_MAP (weekdayIdx d))])
      else
        if (check_class_conflict d (reqS : Int) (reqE : Int) classes).1 then
          .ok ([], [.conflict d (check_class_conflict d (reqS : Int) (reqE : Int) classes).2])
        else
          let durationMin : Int := (be : Int) - (bs : Int)
          let allocatedMin : Int := min durationMin (idealMin : Int)
          let finalEnd : Int := (bs : Int) + allocatedMin
          let notes : List Note :=
            if allocatedMin < durationMin then [.capped d allocatedMin itemType] else []
          .ok ([⟨d, (bs : Int), finalEnd, "Work on " ++ itemName, false⟩], notes)
    | _, _ => .error ()
  else .ok ([], [])

/-- The day loop of `_generate_recurring_blocks` over the list of
candidate calendar days, accumulating blocks and notes in day order;
an uncaught exception on any day aborts the whole call. -/
def genLoop (classes : List ClassEntry) (targetIdx : List Nat)
    (itemName itemType : String) (idealMin : Nat) (reqS reqE : Nat)
    (start_time end_time : String) (now_dt : DateTime) :
    List Nat → Except Unit (List PlanBlock × List Note)
  | [] => .ok ([], [])
  | d :: rest =>
    match processDay classes targetIdx itemName itemType idealMin reqS reqE
        start_time end_time now_dt d with
    | .error e => .error e
    | .ok (bs1, ns1) =>
      match genLoop classes targetIdx itemName itemType idealMin reqS reqE
          start_time end_time now_dt rest with
      | .error e => .error e
      | .ok (bs2, ns2) => .ok (bs1 ++ bs2, ns1 ++ ns2)

/-- `_generate_recurring_blocks`: iterate one calendar day at a time
from the date of `now_dt` (inclusive) while the day's midnight is
strictly before the midnight of the deadline's calendar day
(`stop_date`), generating and validating blocks for the requested
recurring days. `deadline_dt` is the parsed `deadline_dt` the caller
stored on the target item. -/
def generate_recurring_blocks (user_data : UserData) (target_item : Item)
    (deadline_dt : DateTime) (days : List String)
    (start_time end_time : String) (now_dt : DateTime) :
    Except Unit (List PlanBlock × List Note) :=
  let item_type := target_item.task_type.getD (target_item.test_type.getD "default")
  let ideal_session_size := dictGet SESSION_IDEAL_DURATION_MAP item_type 60
  let classes := user_data.schedule
  let target_day_indices := days.filterMap dayMapToIndex
  let requested_start_min := time_to_minutes start_time
  let requested_end_min := time_to_minutes end_time
  genLoop classes target_day_indices target_item.name item_type ideal_session_size
    requested_start_min requested_end_min start_time end_time now_dt
    (List.range' now_dt.day (deadline_dt.day - now_dt.day))

/-- The deadline parse of `schedule_recurring_blocks` lines 91–97:
read `target_item['deadline']` (a missing key raises `KeyError`, caught
by the surrounding `except Exception`), normalize a date-only string to
end-of-day, and parse; `none` is the caught-exception path. -/
def parseItemDeadline (item : Item) : Option DateTime :=
  match item.deadline with
  | none => none
  | some s => parseDatetime (normalizeDeadline s)

/-- The plan label used both for new blocks and for the removal filter. -/
def workLabel (name : String) : String := "Work on " ++ name

/-- `schedule_recurring_blocks`: resolve the item by case-insensitive
name, parse its deadline, generate the recurring blocks, remove every
stored block whose `task` equals `"Work on " ++ item_name`, append the
new blocks, and return the `{status, message}` result together with the
plan written back to the store (`update_generated_plan`). On the two
caller-visible error returns no write happens, so the stored plan is
returned unchanged; `.error` models an uncaught exception escaping the
call (which also happens before any write). -/
def schedule_recurring_blocks (user_data : UserData) (args : Args)
    (now_dt : DateTime) : Except Unit (ToolResult × List PlanBlock) :=
  let all_items := user_data.tasks ++ user_data.tests
  match all_items.find? (fun item => strLower item.name == strLower args.item_name) with
  | none => .ok (⟨.error, .notFound args.item_name⟩, user_data.generated_plan)
  | some target_item =>
    match parseItemDeadline target_item with
    | none => .ok (⟨.error, .internalError⟩, user_data.generated_plan)
    | some deadline_dt =>
      match generate_recurring_blocks user_data target_item deadline_dt
          args.days args.start_time args.end_time now_dt with
      | .error e => .error e
      | .ok (new_plan_entries, messages) =>
        let current_plan :=
          user_data.generated_plan.filter (fun p => p.task != workLabel args.item_name)
        let final_plan := current_plan ++ new_plan_entries
        let message : Message :=
          if messages.isEmpty then .scheduled args.item_name
          else .scheduledWithNotes args.item_name messages
        .ok (⟨.success, message⟩, final_plan)

/-- A normalized work-queue entry produced by `_build_work_queue`. -/
structure WorkItem where
  name : String
  deadline : DateTime
  item_type : Option String
  deriving DecidableEq, Repr

/-- `_build_work_queue`: for each stored task/test, read
`item.get("deadline", item.get("date"))`, normalize a date-only string
to end-of-day and parse it; a record whose deadline is missing or
unparseable is skipped (the `except Exception` branch). The `now_dt`
parameter is accepted but never used by the source. -/
def build_work_queue (user_data : UserData) (now_dt : DateTime) : List WorkItem :=
  (user_data.tasks ++ user_data.tests).filterMap (fun item =>
    match item.deadline.orElse (fun _ => item.date) with
    | none => none
    | some s =>
      (parseDatetime (normalizeDeadline s)).map (fun dl =>
        ⟨item.name, dl, item.task_type.orElse (fun _ => item.test_type)⟩))

/-! ## Lemmas about the conflict checker -/

/-- The weekday-match test applied to each class by the conflict
checker. -/
def dayPred (d : Nat) (c : ClassEntry) : Bool :=
  c.day == DAY_OF_WEEK_MAP (weekdayIdx d)

/-- The full per-class test of the conflict checker: same weekday and
overlapping time range. -/
def conflictPred (d : Nat) (s e : Int) (c : ClassEntry) : Bool :=
  dayPred d c &&
    check_overlap s e (time_to_minutes c.start_time) (time_to_minutes c.end_time)

/-- If the conflict checker reports no conflict, then no class on the
block's weekday overlaps the proposed range. -/
theorem check_class_conflict_false_no_overlap (d : Nat) (s e : Int)
    (cs : List ClassEntry) (h : (check_class_conflict d s e cs).1 = false) :
    ∀ c ∈ cs, c.day = DAY_OF_WEEK_MAP (weekdayIdx d) →
      check_overlap s e (time_to_minutes c.start_time) (time_to_minutes c.end_time)
        = false := by
  induction cs with
  | nil => intro c hc; cases hc
  | cons a rest ih =>
    intro c hc hday
    rw [check_class_conflict] at h
    by_cases ha : (a.day == DAY_OF_WEEK_MAP (weekdayIdx d)) = true
    · rw [if_pos ha] at h
      by_cases hov : check_overlap s e
          (time_to_minutes a.start_time) (time_to_minutes a.end_time) = true
      · rw [if_pos hov] at h; simp at h
      · rw [if_neg hov] at h
        rcases List.mem_cons.mp hc with rfl | hmem
        · exact Bool.not_eq_true _ ▸ hov
        · exact ih h c hmem hday
    · rw [if_neg ha] at h
      rcases List.mem_cons.mp hc with rfl | hmem
      · exact absurd (beq_iff_eq.mpr hday) ha
      · exact ih h c hmem hday

/-- The conflict checker returns exactly the first class in input order
whose day matches the block's weekday and whose range overlaps. -/
theorem check_class_conflict_eq_find (d : Nat) (s e : Int) (cs : List ClassEntry) :
    check_class_conflict d s e cs =
      match cs.find? (conflictPred d s e) with
      | some c => (true, some c.subject)
      | none => (false, none) := by
  induction cs with
  | nil => rfl
  | cons a rest ih =>
    by_cases hp : conflictPred d s e a = true
    · rw [List.find?_cons_of_pos _ hp]
      have ha := (Bool.and_eq_true _ _).mp hp
      have hd : (a.day == DAY_OF_WEEK_MAP (weekdayIdx d)) = true := ha.1
      rw [check_class_conflict, if_pos hd, if_pos ha.2]
    · rw [List.find?_cons_of_neg _ hp, ← ih, check_class_conflict]
      by_cases ha : (a.day == DAY_OF_WEEK_MAP (weekdayIdx d)) = true
      · have hov : check_overlap s e (time_to_minutes a.start_time)
            (time_to_minutes a.end_time) = false := by
          cases hvo : check_overlap s e (time_to_minutes a.start_time)
              (time_to_minutes a.end_time)
          · rfl
          · exact absurd ((Bool.and_eq_true _ _).mpr ⟨ha, hvo⟩) hp
        rw [if_pos ha, hov]; simp
      · rw [if_neg ha]

/-- The conflict checker depends only on the classes whose day equals
the block date's weekday name: filtering the list to that weekday first
does not change the result. -/
theorem check_class_conflict_filter (d : Nat) (s e : Int) (cs : List ClassEntry) :
    check_class_conflict d s e cs =
      check_class_conflict d s e (cs.filter (dayPred d)) := by
  induction cs with
  | nil => rfl
  | cons a rest ih =>
    by_cases ha : dayPred d a = true
    · have hd : (a.day == DAY_OF_WEEK_MAP (weekdayIdx d)) = true := ha
      rw [List.filter_cons_of_pos ha, check_class_conflict, check_class_conflict,
        if_pos hd, if_pos hd]
      by_cases hov : check_overlap s e (time_to_minutes a.start_time)
          (time_to_minutes a.end_time) = true
      · rw [if_pos hov, if_pos hov]
      · rw [if_neg hov, if_neg hov]; exact ih
    · have hd : ¬(a.day == DAY_OF_WEEK_MAP (weekdayIdx d)) = true := ha
      rw [List.filter_cons_of_neg ha, check_class_conflict, if_neg hd]; exact ih

/-! ## Lemmas about the day-loop body -/

/-- The block emitted for a candidate day `d`: requested start time,
end time capped by the ideal session size. -/
def emittedBlock (nm : String) (bs be ideal : Nat) (d : Nat) : PlanBlock :=
  ⟨d, (bs : Int), (bs : Int) + min ((be : Int) - (bs : Int)) (ideal : Int),
   "Work on " ++ nm, false⟩

section DayLoop

variable (C : List ClassEntry) (idx : List Nat) (nm ty : String)
  (ideal rS rE : Nat) (sT eT : String) (now : DateTime)

/-- A day whose weekday is not among the requested day indices is
passed over silently. -/
theorem processDay_skip (d : Nat) (hw : weekdayIdx d ∉ idx) :
    processDay C idx nm ty ideal rS rE sT eT now d = .ok ([], []) := by
  rw [processDay, if_neg hw]

/-- Full characterization of a successful day step: either nothing was
emitted, or all checks passed and exactly the capped block (plus the
capping note when the cap bites) was emitted. -/
theorem processDay_ok_shape (d : Nat) {Ld : List PlanBlock} {Nd : List Note}
    (h : processDay C idx nm ty ideal rS rE sT eT now d = .ok (Ld, Nd)) :
    Ld = [] ∨
    ∃ bs be : Nat, parseClock sT = some bs ∧ parseClock eT = some be ∧
      weekdayIdx d ∈ idx ∧
      (d == now.day && decide (be * 60 < now.sec)) = false ∧
      (check_class_conflict d (rS : Int) (rE : Int) C).1 = false ∧
      Ld = [emittedBlock nm bs be ideal d] ∧
      Nd = (if min ((be : Int) - (bs : Int)) (ideal : Int) < (be : Int) - (bs : Int)
            then [.capped d (min ((be : Int) - (bs : Int)) (ideal : Int)) ty]
            else []) := by
  by_cases hw : weekdayIdx d ∈ idx
  · cases hps : parseClock sT with
    | none =>
      simp only [processDay, if_pos hw, hps] at h
      exact Except.noConfusion h
    | some bs =>
      cases hpe : parseClock eT with
      | none =>
        simp only [processDay, if_pos hw, hps, hpe] at h
        exact Except.noConfusion h
      | some be =>
        simp only [processDay, if_pos hw, hps, hpe] at h
        by_cases hpt : (d == now.day && decide (be * 60 < now.sec)) = true
        · rw [if_pos hpt] at h
          simp only [Except.ok.injEq, Prod.mk.injEq] at h
          exact Or.inl h.1.symm
        · rw [if_neg hpt] at h
          by_cases hcf : (check_class_conflict d (rS : Int) (rE : Int) C).1 = true
          · rw [if_pos hcf] at h
            simp only [Except.ok.injEq, Prod.mk.injEq] at h
            exact Or.inl h.1.symm
          · rw [if_neg hcf] at h
            simp only [Except.ok.injEq, Prod.mk.injEq] at h
            exact Or.inr ⟨bs, be, rfl, rfl, hw,
              by simpa using hpt, by simpa using hcf, h.1.symm, h.2.symm⟩
  · rw [processDay, if_neg hw] at h
    simp only [Except.ok.injEq, Prod.mk.injEq] at h
    exact Or.inl h.1.symm

/-- A matching, not-yet-past day whose requested range conflicts with a
class is skipped, with a note carrying the checker's blocking subject. -/
theorem processDay_conflict_skip (d : Nat) (bs be : Nat)
    (hw : weekdayIdx d ∈ idx)
    (hps : parseClock sT = some bs) (hpe : parseClock eT = some be)
    (hpt : (d == now.day && decide (be * 60 < now.sec)) = false)
    (hcf : (check_class_conflict d (rS : Int) (rE : Int) C).1 = true) :
    processDay C idx nm ty ideal rS rE sT eT now d =
      .ok ([], [.conflict d (check_class_conflict d (rS : Int) (rE : Int) C).2]) := by
  simp only [processDay, if_pos hw, hps, hpe]
  rw [if_neg (by simp [hpt]), if_pos hcf]

end DayLoop

/-! ## Lemmas about the day loop -/

/-- Shrinking the end of a half-open interval preserves
non-overlapping. -/
theorem check_overlap_mono_end {s e e' cs ce : Int} (he : e' ≤ e)
    (hov : check_overlap s e cs ce = false) :
    check_overlap s e' cs ce = false := by
  simp only [check_overlap, Bool.and_eq_false_iff, decide_eq_false_iff_not] at hov ⊢
  omega

section Loop

variable (C : List ClassEntry) (idx : List Nat) (nm ty : String)
  (ideal rS rE : Nat) (sT eT : String) (now : DateTime)

/-- Every block in a successful loop run was emitted by the body on one
of the walked days. -/
theorem genLoop_ok_mem (ds : List Nat) {L : List PlanBlock} {N : List Note}
    (h : genLoop C idx nm ty ideal rS rE sT eT now ds = .ok (L, N))
    {b : PlanBlock} (hb : b ∈ L) :
    ∃ d ∈ ds, ∃ Ld Nd,
      processDay C idx nm ty ideal rS rE sT eT now d = .ok (Ld, Nd) ∧ b ∈ Ld := by
  induction ds generalizing L N with
  | nil =>
    simp only [genLoop, Except.ok.injEq, Prod.mk.injEq] at h
    rw [← h.1] at hb; cases hb
  | cons d rest ih =>
    cases hpd : processDay C idx nm ty ideal rS rE sT eT now d with
    | error e =>
      simp only [genLoop, hpd] at h
      exact Except.noConfusion h
    | ok p =>
      obtain ⟨Ld, Nd⟩ := p
      cases hgl : genLoop C idx nm ty ideal rS rE sT eT now rest with
      | error e =>
        simp only [genLoop, hpd, hgl] at h
        exact Except.noConfusion h
      | ok q =>
        obtain ⟨L2, N2⟩ := q
        simp only [genLoop, hpd, hgl, Except.ok.injEq, Prod.mk.injEq] at h
        rw [← h.1] at hb
        rcases List.mem_append.mp hb with h1 | h2
        · exact ⟨d, List.mem_cons_self _ _, Ld, Nd, hpd, h1⟩
        · obtain ⟨d', hd', Ld', Nd', hp', hb'⟩ := ih hgl h2
          exact ⟨d', List.mem_cons_of_mem _ hd', Ld', Nd', hp', hb'⟩

/-- Every note produced by the body on a walked day appears in the
loop's note list. -/
theorem genLoop_notes_mem (ds : List Nat) {L : List PlanBlock} {N : List Note}
    (h : genLoop C idx nm ty ideal rS rE sT eT now ds = .ok (L, N))
    {d : Nat} (hd : d ∈ ds) {Ld : List PlanBlock} {Nd : List Note}
    (hpd : processDay C idx nm ty ideal rS rE sT eT now d = .ok (Ld, Nd))
    {n : Note} (hn : n ∈ Nd) : n ∈ N := by
  induction ds generalizing L N with
  | nil => cases hd
  | cons d' rest ih =>
    cases hpd' : processDay C idx nm ty ideal rS rE sT eT now d' with
    | error e =>
      simp only [genLoop, hpd'] at h
      exact Except.noConfusion h
    | ok p =>
      obtain ⟨Ld', Nd'⟩ := p
      cases hgl : genLoop C idx nm ty ideal rS rE sT eT now rest with
      | error e =>
        simp only [genLoop, hpd', hgl] at h
        exact Except.noConfusion h
      | ok q =>
        obtain ⟨L2, N2⟩ := q
        simp only [genLoop, hpd', hgl, Except.ok.injEq, Prod.mk.injEq] at h
        rcases List.mem_cons.mp hd with rfl | hmem
        · rw [hpd] at hpd'
          simp only [Except.ok.injEq, Prod.mk.injEq] at hpd'
          rw [← h.2]
          exact List.mem_append.mpr (Or.inl (hpd'.2 ▸ hn))
        · rw [← h.2]
          exact List.mem_append.mpr (Or.inr (ih hgl hmem))

/-- If no walked day's weekday is requested, the loop emits nothing. -/
theorem genLoop_skip_all (ds : List Nat)
    (hall : ∀ d ∈ ds, weekdayIdx d ∉ idx) :
    genLoop C idx nm ty ideal rS rE sT eT now ds = .ok ([], []) := by
  induction ds with
  | nil => rfl
  | cons d rest ih =>
    have h1 := processDay_skip C idx nm ty ideal rS rE sT eT now d
      (hall d (List.mem_cons_self _ _))
    have h2 := ih (fun d' hd' => hall d' (List.mem_cons_of_mem _ hd'))
    rw [genLoop, h1, h2]
    rfl

/-- When both clock strings parse, the body never raises. -/
theorem processDay_isOk (d : Nat) (bs be : Nat)
    (hps : parseClock sT = some bs) (hpe : parseClock eT = some be) :
    ∃ Ld Nd, processDay C idx nm ty ideal rS rE sT eT now d = .ok (Ld, Nd) := by
  by_cases hw : weekdayIdx d ∈ idx
  · simp only [processDay, if_pos hw, hps, hpe]
    by_cases hpt : (d == now.day && decide (be * 60 < now.sec)) = true
    · rw [if_pos hpt]; exact ⟨_, _, rfl⟩
    · rw [if_neg hpt]
      by_cases hcf : (check_class_conflict d (rS : Int) (rE : Int) C).1 = true
      · rw [if_pos hcf]; exact ⟨_, _, rfl⟩
      · rw [if_neg hcf]; exact ⟨_, _, rfl⟩
  · exact ⟨[], [], processDay_skip C idx nm ty ideal rS rE sT eT now d hw⟩

/-- When both clock strings parse, the whole loop never raises. -/
theorem genLoop_isOk (ds : List Nat) (bs be : Nat)
    (hps : parseClock sT = some bs) (hpe : parseClock eT = some be) :
    ∃ L N, genLoop C idx nm ty ideal rS rE sT eT now ds = .ok (L, N) := by
  induction ds with
  | nil => exact ⟨[], [], rfl⟩
  | cons d rest ih =>
    obtain ⟨Ld, Nd, hpd⟩ := processDay_isOk C idx nm ty ideal rS rE sT eT now d bs be hps hpe
    obtain ⟨L2, N2, hgl⟩ := ih
    exact ⟨Ld ++ L2, Nd ++ N2, by rw [genLoop, hpd, hgl]⟩

/-- A block emitted on day `d` carries date `d`. -/
theorem processDay_mem_date (d : Nat) {Ld : List PlanBlock} {Nd : List Note}
    (h : processDay C idx nm ty ideal rS rE sT eT now d = .ok (Ld, Nd))
    {b : PlanBlock} (hb : b ∈ Ld) : b.date = d := by
  rcases processDay_ok_shape C idx nm ty ideal rS rE sT eT now d h with
    hLd | ⟨bs, be, _, _, _, _, _, hLd, _⟩
  · rw [hLd] at hb; cases hb
  · rw [hLd] at hb
    rw [List.mem_singleton.mp hb]
    rfl

/-- Every block emitted by the loop is labeled for the target item. -/
theorem genLoop_mem_task (ds : List Nat) {L : List PlanBlock} {N : List Note}
    (h : genLoop C idx nm ty ideal rS rE sT eT now ds = .ok (L, N))
    {b : PlanBlock} (hb : b ∈ L) : b.task = "Work on " ++ nm := by
  obtain ⟨d, hd, Ld, Nd, hpd, hbL⟩ :=
    genLoop_ok_mem C idx nm ty ideal rS rE sT eT now ds h hb
  rcases processDay_ok_shape C idx nm ty ideal rS rE sT eT now d hpd with
    hLd | ⟨bs, be, _, _, _, _, _, hLd, _⟩
  · rw [hLd] at hbL; cases hbL
  · rw [hLd] at hbL
    rw [List.mem_singleton.mp hbL]
    rfl

/-- Blocks of one run have strictly increasing dates when the walked
days do: at most one block is emitted per calendar day. -/
theorem genLoop_pairwise_dates (ds : List Nat)
    (hds : List.Pairwise (· < ·) ds) {L : List PlanBlock} {N : List Note}
    (h : genLoop C idx nm ty ideal rS rE sT eT now ds = .ok (L, N)) :
    L.Pairwise (fun a b => a.date < b.date) := by
  induction ds generalizing L N with
  | nil =>
    simp only [genLoop, Except.ok.injEq, Prod.mk.injEq] at h
    rw [← h.1]; exact List.Pairwise.nil
  | cons d rest ih =>
    cases hpd : processDay C idx nm ty ideal rS rE sT eT now d with
    | error e =>
      simp only [genLoop, hpd] at h
      exact Except.noConfusion h
    | ok p =>
      obtain ⟨Ld, Nd⟩ := p
      cases hgl : genLoop C idx nm ty ideal rS rE sT eT now rest with
      | error e =>
        simp only [genLoop, hpd, hgl] at h
        exact Except.noConfusion h
      | ok q =>
        obtain ⟨L2, N2⟩ := q
        simp only [genLoop, hpd, hgl, Except.ok.injEq, Prod.mk.injEq] at h
        rw [← h.1]
        have hhd := (List.pairwise_cons.mp hds).1
        have htl := (List.pairwise_cons.mp hds).2
        refine List.pairwise_append.mpr ⟨?_, ih htl hgl, ?_⟩
        · rcases processDay_ok_shape C idx nm ty ideal rS rE sT eT now d hpd with
            hLd | ⟨bs, be, _, _, _, _, _, hLd, _⟩
          · rw [hLd]; exact List.Pairwise.nil
          · rw [hLd]; exact List.pairwise_singleton _ _
        · intro a ha b hb
          obtain ⟨d', hd', Ld', Nd', hp', hb'⟩ := genLoop_ok_mem C idx nm ty ideal rS rE sT eT now rest hgl hb
          rw [processDay_mem_date C idx nm ty ideal rS rE sT eT now d hpd ha,
            processDay_mem_date C idx nm ty ideal rS rE sT eT now d' hp' hb']
          exact hhd d' hd'

end Loop

/-! ## Lemmas about the clock parsers -/

/-- Two-digit decimal rendering of a number below 100. -/
def toTwoDigits (n : Nat) : List Char :=
  [Char.ofNat (48 + n / 10), Char.ofNat (48 + n % 10)]

/-- The specification-side description of a well-formed HH:MM clock
string: two digits, a colon, two digits. -/
def formatHHMM (h m : Nat) : String :=
  ⟨toTwoDigits h ++ ':' :: toTwoDigits m⟩

/-- A digit character built from a digit value is a digit. -/
theorem ofNat_digit_isDigit : ∀ d : Nat, d ≤ 9 →
    (Char.ofNat (48 + d)).isDigit = true := by decide

/-- `digitVal` inverts digit-character construction. -/
theorem digitVal_ofNat_digit : ∀ d : Nat, d ≤ 9 →
    digitVal (Char.ofNat (48 + d)) = d := by decide

/-- A digit character is neither '-' nor '+' nor ':'. -/
theorem ofNat_digit_ne_signs : ∀ d : Nat, d ≤ 9 →
    ((Char.ofNat (48 + d) == '-') = false ∧
     (Char.ofNat (48 + d) == '+') = false) := by decide

/-- Evaluation of the HH:MM clock parser on an arbitrary five-character
string. -/
theorem parseClock_five (a b c d e : Char) :
    parseClock ⟨[a, b, c, d, e]⟩ =
      if a.isDigit && b.isDigit && c == ':' && d.isDigit && e.isDigit then
        if 10 * digitVal a + digitVal b ≤ 23 &&
            10 * digitVal d + digitVal e ≤ 59 then
          some (60 * (10 * digitVal a + digitVal b) +
            (10 * digitVal d + digitVal e))
        else none
      else none := rfl

/-- A digit character's code point lies in 48–57. -/
theorem isDigit_toNat_bounds (c : Char) (h : c.isDigit = true) :
    48 ≤ c.toNat ∧ c.toNat ≤ 57 := by
  unfold Char.isDigit at h
  simp only [Bool.and_eq_true, decide_eq_true_eq] at h
  exact ⟨h.1, h.2⟩

/-- Rebuilding a digit character from its value yields the character. -/
theorem digit_char_eq (c : Char) (h : c.isDigit = true) :
    Char.ofNat (48 + digitVal c) = c := by
  obtain ⟨h1, h2⟩ := isDigit_toNat_bounds c h
  have he : 48 + digitVal c = c.toNat := by unfold digitVal; omega
  rw [he, Char.ofNat_toNat]

/-- Any string accepted by the HH:MM clock parser is the two-digit
rendering of an in-range hour and minute. -/
theorem parseClock_some_format (s : String) (v : Nat)
    (hp : parseClock s = some v) :
    ∃ h m : Nat, h ≤ 23 ∧ m ≤ 59 ∧ s = formatHHMM h m := by
  obtain ⟨cs⟩ := s
  rcases cs with _ | ⟨a, _ | ⟨b, _ | ⟨c, _ | ⟨d, _ | ⟨e, _ | ⟨f, rest⟩⟩⟩⟩⟩⟩
  · exact Option.noConfusion hp
  · exact Option.noConfusion hp
  · exact Option.noConfusion hp
  · exact Option.noConfusion hp
  · exact Option.noConfusion hp
  case cons.cons.cons.cons.cons.nil =>
    rw [parseClock_five] at hp
    by_cases hdig : (a.isDigit && b.isDigit && c == ':' &&
        d.isDigit && e.isDigit) = true
    · rw [if_pos hdig] at hp
      simp only [Bool.and_eq_true] at hdig
      obtain ⟨⟨⟨⟨ha, hb⟩, hc⟩, hd⟩, he⟩ := hdig
      by_cases hb2 : (10 * digitVal a + digitVal b ≤ 23 &&
          10 * digitVal d + digitVal e ≤ 59) = true
      · simp only [Bool.and_eq_true, decide_eq_true_eq] at hb2
        have hva : digitVal a ≤ 9 := by
          have := isDigit_toNat_bounds a ha; unfold digitVal; omega
        have hvb : digitVal b ≤ 9 := by
          have := isDigit_toNat_bounds b hb; unfold digitVal; omega
        have hvd : digitVal d ≤ 9 := by
          have := isDigit_toNat_bounds d hd; unfold digitVal; omega
        have hve : digitVal e ≤ 9 := by
          have := isDigit_toNat_bounds e he; unfold digitVal; omega
        refine ⟨10 * digitVal a + digitVal b, 10 * digitVal d + digitVal e,
          hb2.1, hb2.2, ?_⟩
        have e1 : (10 * digitVal a + digitVal b) / 10 = digitVal a := by omega
        have e2 : (10 * digitVal a + digitVal b) % 10 = digitVal b := by omega
        have e3 : (10 * digitVal d + digitVal e) / 10 = digitVal d := by omega
        have e4 : (10 * digitVal d + digitVal e) % 10 = digitVal e := by omega
        have hceq : c = ':' := eq_of_beq hc
        rw [formatHHMM, toTwoDigits, toTwoDigits, e1, e2, e3, e4,
          digit_char_eq a ha, digit_char_eq b hb, digit_char_eq d hd,
          digit_char_eq e he, hceq]
        rfl
      · rw [if_neg hb2] at hp
        exact Option.noConfusion hp
    · rw [if_neg hdig] at hp
      exact Option.noConfusion hp
  case cons.cons.cons.cons.cons.cons =>
    exact Option.noConfusion hp

/-- The HH:MM clock parser accepts a well-formed rendering and returns
its minute value. -/
theorem parseClock_format (h m : Nat) (hh : h ≤ 23) (hm : m ≤ 59) :
    parseClock (formatHHMM h m) = some (60 * h + m) := by
  have hd1 : h / 10 ≤ 9 := by omega
  have hd2 : h % 10 ≤ 9 := by omega
  have hd3 : m / 10 ≤ 9 := by omega
  have hd4 : m % 10 ≤ 9 := by omega
  have hfmt : formatHHMM h m =
      ⟨[Char.ofNat (48 + h / 10), Char.ofNat (48 + h % 10), ':',
        Char.ofNat (48 + m / 10), Char.ofNat (48 + m % 10)]⟩ := rfl
  rw [hfmt, parseClock_five,
    ofNat_digit_isDigit _ hd1, ofNat_digit_isDigit _ hd2,
    ofNat_digit_isDigit _ hd3, ofNat_digit_isDigit _ hd4,
    digitVal_ofNat_digit _ hd1, digitVal_ofNat_digit _ hd2,
    digitVal_ofNat_digit _ hd3, digitVal_ofNat_digit _ hd4]
  have hh' : 10 * (h / 10) + h % 10 = h := by omega
  have hm' : 10 * (m / 10) + m % 10 = m := by omega
  rw [hh', hm', if_pos (by decide), if_pos (by simp [hh, hm])]

/-- `findCharIdx` misses a character absent from the list. -/
theorem findCharIdx_none (c : Char) (cs : List Char)
    (h : ∀ x ∈ cs, (x == c) = false) : findCharIdx c cs = none := by
  induction cs with
  | nil => rfl
  | cons x xs ih =>
    rw [findCharIdx, if_neg (by simp [h x (List.mem_cons_self _ _)]),
      ih (fun y hy => h y (List.mem_cons_of_mem _ hy))]
    rfl

/-- The full ISO time parser accepts a well-formed HH:MM rendering and
returns the time with zero seconds and microseconds. -/
theorem fromiso_format (h m : Nat) (hh : h ≤ 23) (hm : m ≤ 59) :
    time_fromisoformat (formatHHMM h m) = some ⟨h, m, 0, 0⟩ := by
  have hd1 : h / 10 ≤ 9 := by omega
  have hd2 : h % 10 ≤ 9 := by omega
  have hd3 : m / 10 ≤ 9 := by omega
  have hd4 : m % 10 ≤ 9 := by omega
  have hfmt : formatHHMM h m =
      ⟨[Char.ofNat (48 + h / 10), Char.ofNat (48 + h % 10), ':',
        Char.ofNat (48 + m / 10), Char.ofNat (48 + m % 10)]⟩ := rfl
  have hnosign : ∀ c : Char, (c == '-') = false → findCharIdx '-' [] = none := by
    intro c _; rfl
  have hall : ∀ sign : Char, (':' == sign) = false →
      (∀ d : Nat, d ≤ 9 → (Char.ofNat (48 + d) == sign) = false) →
      findCharIdx sign
        [Char.ofNat (48 + h / 10), Char.ofNat (48 + h % 10), ':',
         Char.ofNat (48 + m / 10), Char.ofNat (48 + m % 10)] = none := by
    intro sign hcolon hdigit
    refine findCharIdx_none _ _ ?_
    intro x hx
    simp only [List.mem_cons, List.not_mem_nil, or_false] at hx
    rcases hx with rfl | rfl | rfl | rfl | rfl
    · exact hdigit _ hd1
    · exact hdigit _ hd2
    · exact hcolon
    · exact hdigit _ hd3
    · exact hdigit _ hd4
  have hsplit : splitAtTz
      [Char.ofNat (48 + h / 10), Char.ofNat (48 + h % 10), ':',
       Char.ofNat (48 + m / 10), Char.ofNat (48 + m % 10)] =
      ([Char.ofNat (48 + h / 10), Char.ofNat (48 + h % 10), ':',
        Char.ofNat (48 + m / 10), Char.ofNat (48 + m % 10)], none) := by
    rw [splitAtTz,
      hall '-' (by decide) (fun d hd => (ofNat_digit_ne_signs d hd).1),
      hall '+' (by decide) (fun d hd => (ofNat_digit_ne_signs d hd).2)]
  rw [hfmt, time_fromisoformat]
  rw [if_neg (by simp)]
  simp only [String.toList, hsplit]
  rw [parse_hh_mm_ss_ff]
  rw [if_pos (by simp [ofNat_digit_isDigit _ hd1, ofNat_digit_isDigit _ hd2,
    ofNat_digit_isDigit _ hd3, ofNat_digit_isDigit _ hd4])]
  simp only [digitVal_ofNat_digit _ hd1, digitVal_ofNat_digit _ hd2,
    digitVal_ofNat_digit _ hd3, digitVal_ofNat_digit _ hd4]
  have hh' : 10 * (h / 10) + h % 10 = h := by omega
  have hm' : 10 * (m / 10) + m % 10 = m := by omega
  rw [hh', hm', if_pos (by simp [hh, hm])]

/-- The HH:MM parser is the restriction of the full ISO time parser:
on every accepted string the two agree, with zero seconds. -/
theorem parseClock_agrees (s : String) (v : Nat)
    (hp : parseClock s = some v) :
    ∃ h m : Nat, h ≤ 23 ∧ m ≤ 59 ∧ v = 60 * h + m ∧
      time_fromisoformat s = some ⟨h, m, 0, 0⟩ := by
  obtain ⟨h, m, hh, hm, rfl⟩ := parseClock_some_format s v hp
  rw [parseClock_format h m hh hm] at hp
  exact ⟨h, m, hh, hm, (Option.some.inj hp).symm, fromiso_format h m hh hm⟩

/-! ## Helper lemmas for the generator and scheduler -/

/-- Every ideal session size in the duration map is positive, so the
`dict.get` lookup with default 60 is always positive. -/
theorem sessionIdeal_pos (t : String) :
    0 < dictGet SESSION_IDEAL_DURATION_MAP t 60 := by
  have hall : ∀ p ∈ SESSION_IDEAL_DURATION_MAP, 0 < p.2 := by decide
  rw [dictGet]
  cases hf : SESSION_IDEAL_DURATION_MAP.find? (fun p => p.1 == t) with
  | none => simp
  | some p =>
    simp only [Option.map_some', Option.getD_some]
    exact hall p (List.mem_of_find?_eq_some hf)

/-- On a string the HH:MM parser accepts, `_time_to_minutes` returns
the same minute value (it agrees with the unprotected
`time.fromisoformat` of the block-time computation). -/
theorem time_to_minutes_of_parse {s : String} {v : Nat}
    (h : parseClock s = some v) : time_to_minutes s = v := by
  obtain ⟨h', m', _, _, rfl, hiso⟩ := parseClock_agrees s v h
  simp only [time_to_minutes, hiso]
  omega

/-- Unfolding of the generator into the day loop over the walked range
of calendar days. -/
theorem generate_eq (ud : UserData) (target : Item) (dl : DateTime)
    (days : List String) (sT eT : String) (now : DateTime) :
    generate_recurring_blocks ud target dl days sT eT now =
      genLoop ud.schedule (days.filterMap dayMapToIndex) target.name
        (target.task_type.getD (target.test_type.getD "default"))
        (dictGet SESSION_IDEAL_DURATION_MAP
          (target.task_type.getD (target.test_type.getD "default")) 60)
        (time_to_minutes sT) (time_to_minutes eT) sT eT now
        (List.range' now.day (dl.day - now.day)) := rfl

/-! ## Concrete fixtures used by witnesses and counterexamples

Ordinal 739903 is 2026-10-14, a Wednesday; 739905 is 2026-10-16. -/

/-- A stored assignment task "Essay" due 2026-10-16. -/
def essayItem : Item := ⟨"Essay", some "2026-10-16", none, some "assignment", none⟩

/-- A user owning only the Essay task, with an empty plan. -/
def exUD : UserData := ⟨[essayItem], [], [], []⟩

/-- "Now": 2026-10-14 (Wednesday) at 10:00. -/
def exNow : DateTime := ⟨739903, 36000⟩

/-- The parsed deadline of `essayItem` (2026-10-16 end of day). -/
def exDeadline : DateTime := ⟨739905, 86399⟩

/-- The block generated for the Essay on Wednesday 18:00–19:00. -/
def exBlock : PlanBlock := ⟨739903, 1080, 1140, "Work on Essay", false⟩

/-! ## C1 -/

/-- C1: the day-by-day walk of `_generate_recurring_blocks` runs from
the date of `now` (inclusive) up to but not including the calendar day
of the item's deadline, so every generated block's date lies in
`[now.day, deadline.day)`: no block is ever emitted on or after the
deadline's calendar day. -/
theorem C1_no_block_on_or_after_deadline_day (ud : UserData) (target : Item)
    (dl : DateTime) (days : List String) (sT eT : String) (now : DateTime)
    {L : List PlanBlock} {N : List Note}
    (h : generate_recurring_blocks ud target dl days sT eT now = .ok (L, N)) :
    ∀ b ∈ L, now.day ≤ b.date ∧ b.date < dl.day := by
  intro b hb
  rw [generate_eq] at h
  obtain ⟨d, hd, Ld, Nd, hpd, hbL⟩ :=
    genLoop_ok_mem _ _ _ _ _ _ _ _ _ _ _ h hb
  rw [processDay_mem_date _ _ _ _ _ _ _ _ _ _ _ hpd hbL]
  obtain ⟨i, hi, rfl⟩ := List.mem_range'.mp hd
  omega

/-- Witness for C1 at a concrete input: the Essay scheduled Wednesdays
18:00–19:00 from 2026-10-14 with deadline 2026-10-16 yields one block,
dated on or after now's date and strictly before the deadline day. -/
theorem C1_witness :
    generate_recurring_blocks exUD essayItem exDeadline ["Wednesday"]
      "18:00" "19:00" exNow = .ok ([exBlock], []) ∧
    (exNow.day ≤ exBlock.date ∧ exBlock.date < exDeadline.day) :=
  ⟨by decide,
   @C1_no_block_on_or_after_deadline_day exUD essayItem exDeadline ["Wednesday"]
     "18:00" "19:00" exNow [exBlock] [] (by decide) exBlock (by decide)⟩

/-! ## C2 -/

/-- C2: (1) no generated block's time range overlaps any fixed class on
that block's weekday (half-open interval overlap on parsed minutes);
(2) a walked candidate day — weekday requested, not past-skipped —
whose requested range overlaps a class is skipped: no block carries its
date, and a note naming the first conflicting class in the class list's
input order is produced; (3) the conflict checker considers only
classes whose day equals the candidate day's weekday name. -/
theorem C2_conflict_handling :
    (∀ (ud : UserData) (target : Item) (dl : DateTime) (days : List String)
       (sT eT : String) (now : DateTime) (L : List PlanBlock) (N : List Note),
       generate_recurring_blocks ud target dl days sT eT now = .ok (L, N) →
       ∀ b ∈ L, ∀ c ∈ ud.schedule,
         c.day = DAY_OF_WEEK_MAP (weekdayIdx b.date) →
         check_overlap b.start_time b.end_time
           (time_to_minutes c.start_time) (time_to_minutes c.end_time) = false)
    ∧ (∀ (ud : UserData) (target : Item) (dl : DateTime) (days : List String)
       (sT eT : String) (now : DateTime) (d bs be : Nat) (c : ClassEntry),
       d ∈ List.range' now.day (dl.day - now.day) →
       weekdayIdx d ∈ days.filterMap dayMapToIndex →
       parseClock sT = some bs → parseClock eT = some be →
       (d == now.day && decide (be * 60 < now.sec)) = false →
       ud.schedule.find?
         (conflictPred d (time_to_minutes sT) (time_to_minutes eT)) = some c →
       ∃ L N, generate_recurring_blocks ud target dl days sT eT now = .ok (L, N) ∧
         (∀ b ∈ L, b.date ≠ d) ∧ Note.conflict d (some c.subject) ∈ N)
    ∧ (∀ (d : Nat) (s e : Int) (cs : List ClassEntry),
       check_class_conflict d s e cs =
         check_class_conflict d s e (cs.filter (dayPred d))) := by
  refine ⟨?_, ?_, check_class_conflict_filter⟩
  · intro ud target dl days sT eT now L N h b hb c hc hday
    rw [generate_eq] at h
    obtain ⟨d, hd, Ld, Nd, hpd, hbL⟩ :=
      genLoop_ok_mem _ _ _ _ _ _ _ _ _ _ _ h hb
    rcases processDay_ok_shape _ _ _ _ _ _ _ _ _ _ _ hpd with
      hLd | ⟨bs, be, hps, hpe, _, _, hcf, hLd, _⟩
    · rw [hLd] at hbL; cases hbL
    · rw [hLd] at hbL
      have hbeq := List.mem_singleton.mp hbL
      subst hbeq
      simp only [emittedBlock] at hday ⊢
      have hno := check_class_conflict_false_no_overlap d
        (time_to_minutes sT) (time_to_minutes eT) ud.schedule hcf c hc hday
      have hbs := time_to_minutes_of_parse hps
      have hbe := time_to_minutes_of_parse hpe
      rw [hbs, hbe] at hno
      refine check_overlap_mono_end ?_ hno
      have := min_le_left ((be : Int) - (bs : Int))
        ((dictGet SESSION_IDEAL_DURATION_MAP
          (target.task_type.getD (target.test_type.getD "default")) 60 : Nat) : Int)
      omega
  · intro ud target dl days sT eT now d bs be c hd hw hps hpe hpt hfind
    have hcheck : check_class_conflict d (time_to_minutes sT) (time_to_minutes eT)
        ud.schedule = (true, some c.subject) := by
      rw [check_class_conflict_eq_find, hfind]
    have hskip := processDay_conflict_skip ud.schedule
      (days.filterMap dayMapToIndex) target.name
      (target.task_type.getD (target.test_type.getD "default"))
      (dictGet SESSION_IDEAL_DURATION_MAP
        (target.task_type.getD (target.test_type.getD "default")) 60)
      (time_to_minutes sT) (time_to_minutes eT) sT eT now d bs be
      hw hps hpe hpt (by rw [hcheck])
    obtain ⟨L, N, hgen⟩ := genLoop_isOk ud.schedule
      (days.filterMap dayMapToIndex) target.name
      (target.task_type.getD (target.test_type.getD "default"))
      (dictGet SESSION_IDEAL_DURATION_MAP
        (target.task_type.getD (target.test_type.getD "default")) 60)
      (time_to_minutes sT) (time_to_minutes eT) sT eT now
      (List.range' now.day (dl.day - now.day)) bs be hps hpe
    refine ⟨L, N, by rw [generate_eq]; exact hgen, ?_, ?_⟩
    · intro b hb heq
      obtain ⟨d', hd', Ld', Nd', hp', hb'⟩ :=
        genLoop_ok_mem _ _ _ _ _ _ _ _ _ _ _ hgen hb
      have hdate := processDay_mem_date _ _ _ _ _ _ _ _ _ _ _ hp' hb'
      rw [hdate] at heq
      subst heq
      rw [hskip] at hp'
      simp only [Except.ok.injEq, Prod.mk.injEq] at hp'
      rw [← hp'.1] at hb'
      cases hb'
    · refine genLoop_notes_mem _ _ _ _ _ _ _ _ _ _ _ hgen hd hskip ?_
      rw [hcheck]
      exact List.mem_singleton.mpr rfl

/-- A fixed Wednesday morning class, not overlapping the evening
window. -/
def mathClass : ClassEntry := ⟨"Wednesday", "Math", "08:00", "09:00"⟩

/-- The Essay user with the Wednesday morning class on the schedule. -/
def classUD : UserData := ⟨[essayItem], [], [mathClass], []⟩

/-- Witness for C2 at a concrete input: the emitted evening block does
not overlap the same-weekday morning class. -/
theorem C2_witness :
    generate_recurring_blocks classUD essayItem exDeadline ["Wednesday"]
      "18:00" "19:00" exNow = .ok ([exBlock], []) ∧
    mathClass.day = DAY_OF_WEEK_MAP (weekdayIdx exBlock.date) ∧
    check_overlap exBlock.start_time exBlock.end_time
      (time_to_minutes mathClass.start_time)
      (time_to_minutes mathClass.end_time) = false :=
  ⟨by decide, by decide,
   C2_conflict_handling.1 classUD essayItem exDeadline ["Wednesday"]
     "18:00" "19:00" exNow [exBlock] [] (by decide) exBlock (by decide)
     mathClass (by decide) (by decide)⟩

/-! ## C3 -/

/-- C3 (amended): `schedule_recurring_blocks` is idempotent provided
the supplied item name equals the resolved item's stored name exactly
(the removal filter uses the caller's spelling while new blocks are
labeled with the stored spelling): re-invoking with the same arguments
on the plan produced by the first call returns the same result and the
same plan, and blocks of other items (task label different from
`"Work on " ++ item_name`) survive into the new plan. -/
theorem C3_idempotent_replacement (ud : UserData) (args : Args)
    (now : DateTime) (r1 : ToolResult) (p1 : List PlanBlock)
    (hname : ∀ t, (ud.tasks ++ ud.tests).find?
      (fun item => strLower item.name == strLower args.item_name) = some t →
      t.name = args.item_name)
    (h1 : schedule_recurring_blocks ud args now = .ok (r1, p1)) :
    schedule_recurring_blocks { ud with generated_plan := p1 } args now
      = .ok (r1, p1) ∧
    ∀ b ∈ ud.generated_plan, b.task ≠ workLabel args.item_name → b ∈ p1 := by
  cases hfind : (ud.tasks ++ ud.tests).find?
      (fun item => strLower item.name == strLower args.item_name) with
  | none =>
    simp only [schedule_recurring_blocks, hfind, Except.ok.injEq,
      Prod.mk.injEq] at h1
    obtain ⟨hr, hp⟩ := h1
    constructor
    · simp only [schedule_recurring_blocks, hfind, hr, hp]
    · intro b hb _
      rw [← hp]; exact hb
  | some target =>
    cases hdl : parseItemDeadline target with
    | none =>
      simp only [schedule_recurring_blocks, hfind, hdl, Except.ok.injEq,
        Prod.mk.injEq] at h1
      obtain ⟨hr, hp⟩ := h1
      constructor
      · simp only [schedule_recurring_blocks, hfind, hdl, hr, hp]
      · intro b hb _
        rw [← hp]; exact hb
    | some dl =>
      cases hgen : generate_recurring_blocks ud target dl args.days
          args.start_time args.end_time now with
      | error e =>
        simp only [schedule_recurring_blocks, hfind, hdl, hgen] at h1
        exact Except.noConfusion h1
      | ok q =>
        obtain ⟨L, N⟩ := q
        simp only [schedule_recurring_blocks, hfind, hdl, hgen,
          Except.ok.injEq, Prod.mk.injEq] at h1
        obtain ⟨hr, hp⟩ := h1
        have htask : ∀ b ∈ L, b.task = workLabel args.item_name := by
          intro b hb
          rw [generate_eq] at hgen
          rw [genLoop_mem_task _ _ _ _ _ _ _ _ _ _ _ hgen hb,
            hname target hfind]
          rfl
        have hLnil : L.filter (fun p => p.task != workLabel args.item_name)
            = [] := by
          refine List.filter_eq_nil_iff.mpr ?_
          intro b hb
          simp [htask b hb]
        have hfilter : p1.filter (fun p => p.task != workLabel args.item_name)
            = ud.generated_plan.filter
                (fun p => p.task != workLabel args.item_name) := by
          rw [← hp, List.filter_append, hLnil, List.append_nil,
            List.filter_filter]
          simp only [Bool.and_self]
        have hgen' : generate_recurring_blocks
            { ud with generated_plan := p1 } target dl args.days
            args.start_time args.end_time now = .ok (L, N) := hgen
        constructor
        · simp only [schedule_recurring_blocks, hfind, hdl, hgen',
            Except.ok.injEq, Prod.mk.injEq]
          exact ⟨hr, by rw [hfilter, hp]⟩
        · intro b hb hbne
          rw [← hp]
          refine List.mem_append.mpr (Or.inl ?_)
          exact List.mem_filter.mpr ⟨hb, bne_iff_ne.mpr hbne⟩

/-- The block generated by the counterexample run (labeled with the
stored capitalization "Essay"). -/
def cexBlock : PlanBlock := ⟨739903, 1080, 1140, "Work on Essay", false⟩

/-- The counterexample arguments: same item, but spelled "essay". -/
def cexArgs : Args := ⟨"essay", ["Wednesday"], "18:00", "19:00"⟩

/-- Counterexample to C3 as stated: registering "essay" (case-differing
from the stored name "Essay") twice with identical arguments duplicates
the block — the second call's removal filter matches no stored block,
so the plan after two calls differs from the plan after one. -/
theorem C3_counterexample :
    schedule_recurring_blocks exUD cexArgs exNow =
      .ok (⟨.success, .scheduled "essay"⟩, [cexBlock]) ∧
    schedule_recurring_blocks { exUD with generated_plan := [cexBlock] }
      cexArgs exNow =
      .ok (⟨.success, .scheduled "essay"⟩, [cexBlock, cexBlock]) ∧
    ([cexBlock, cexBlock] : List PlanBlock) ≠ [cexBlock] :=
  ⟨by decide, by decide, by decide⟩

/-- Witness for the amended C3: with the exact stored spelling "Essay"
the second call returns the same plan, and a pre-existing block of
another item survives. -/
theorem C3_witness :
    (∀ t, ((⟨[essayItem], [], [],
        [⟨739903, 600, 660, "Work on Other", false⟩]⟩ : UserData).tasks ++
        ([] : List Item)).find?
      (fun item => strLower item.name == strLower "Essay") = some t →
      t.name = "Essay") ∧
    schedule_recurring_blocks
      { (⟨[essayItem], [], [], [⟨739903, 600, 660, "Work on Other", false⟩]⟩ :
          UserData) with
        generated_plan := [⟨739903, 600, 660, "Work on Other", false⟩, exBlock] }
      ⟨"Essay", ["Wednesday"], "18:00", "19:00"⟩ exNow =
      .ok (⟨.success, .scheduled "Essay"⟩,
        [⟨739903, 600, 660, "Work on Other", false⟩, exBlock]) ∧
    (⟨739903, 600, 660, "Work on Other", false⟩ : PlanBlock) ∈
      ([⟨739903, 600, 660, "Work on Other", false⟩, exBlock] : List PlanBlock) := by
  refine ⟨by decide, ?_, ?_⟩
  · exact (C3_idempotent_replacement
      ⟨[essayItem], [], [], [⟨739903, 600, 660, "Work on Other", false⟩]⟩
      ⟨"Essay", ["Wednesday"], "18:00", "19:00"⟩ exNow
      ⟨.success, .scheduled "Essay"⟩
      [⟨739903, 600, 660, "Work on Other", false⟩, exBlock]
      (by decide) (by decide)).1
  · exact (C3_idempotent_replacement
      ⟨[essayItem], [], [], [⟨739903, 600, 660, "Work on Other", false⟩]⟩
      ⟨"Essay", ["Wednesday"], "18:00", "19:00"⟩ exNow
      ⟨.success, .scheduled "Essay"⟩
      [⟨739903, 600, 660, "Work on Other", false⟩, exBlock]
      (by decide) (by decide)).2
      ⟨739903, 600, 660, "Work on Other", false⟩ (by decide) (by decide)

/-! ## C4 -/

/-- C4 (amended): every block emitted by the recurring-block generator
has `start_time < end_time` provided the caller-supplied window has
positive length (parsed start minute strictly below parsed end minute);
a request with equal times, or with the end before the start, instead
yields a degenerate block whose end does not exceed its start. -/
theorem C4_start_lt_end (ud : UserData) (target : Item) (dl : DateTime)
    (days : List String) (sT eT : String) (now : DateTime)
    {L : List PlanBlock} {N : List Note}
    (hlt : time_to_minutes sT < time_to_minutes eT)
    (h : generate_recurring_blocks ud target dl days sT eT now = .ok (L, N)) :
    ∀ b ∈ L, b.start_time < b.end_time := by
  intro b hb
  rw [generate_eq] at h
  obtain ⟨d, hd, Ld, Nd, hpd, hbL⟩ :=
    genLoop_ok_mem _ _ _ _ _ _ _ _ _ _ _ h hb
  rcases processDay_ok_shape _ _ _ _ _ _ _ _ _ _ _ hpd with
    hLd | ⟨bs, be, hps, hpe, _, _, _, hLd, _⟩
  · rw [hLd] at hbL; cases hbL
  · rw [hLd] at hbL
    rw [List.mem_singleton.mp hbL]
    simp only [emittedBlock]
    have hbs := time_to_minutes_of_parse hps
    have hbe := time_to_minutes_of_parse hpe
    rw [hbs, hbe] at hlt
    have hpos := sessionIdeal_pos
      (target.task_type.getD (target.test_type.getD "default"))
    have h1 : (0 : Int) < (be : Int) - (bs : Int) := by
      omega
    have h2 : (0 : Int) < ((dictGet SESSION_IDEAL_DURATION_MAP
        (target.task_type.getD (target.test_type.getD "default")) 60 : Nat)
          : Int) := by
      exact_mod_cast hpos
    have h3 := lt_min h1 h2
    omega

/-- Counterexample to C4 as stated: with equal start and end times
("10:00"–"10:00") a block is still emitted, and its start equals its
end — `start_time < end_time` fails. -/
theorem C4_counterexample :
    generate_recurring_blocks exUD essayItem exDeadline ["Wednesday"]
      "10:00" "10:00" exNow =
      .ok ([⟨739903, 600, 600, "Work on Essay", false⟩], []) ∧
    ¬((⟨739903, 600, 600, "Work on Essay", false⟩ : PlanBlock).start_time <
      (⟨739903, 600, 600, "Work on Essay", false⟩ : PlanBlock).end_time) :=
  ⟨by decide, by decide⟩

/-- Witness for the amended C4 at a concrete input. -/
theorem C4_witness :
    time_to_minutes "18:00" < time_to_minutes "19:00" ∧
    exBlock.start_time < exBlock.end_time :=
  ⟨by decide,
   @C4_start_lt_end exUD essayItem exDeadline ["Wednesday"] "18:00" "19:00"
     exNow [exBlock] [] (by decide) (by decide) exBlock (by decide)⟩

/-! ## C5 -/

/-- C5: the allocated duration of every generated block equals
`min(requested window length, ideal session duration of the item's
type)` with the duration map exam=180min, project=120, quiz=60,
assignment=60, seatwork=30 and 60 for an unknown type; when the window
exceeds the cap the block ends at `start + cap` and a capping note is
produced; dates of the blocks of one run are strictly increasing, so
the excess time is not allocated to any other block that day. -/
theorem C5_session_cap :
    (dictGet SESSION_IDEAL_DURATION_MAP "exam" 60 = 180 ∧
     dictGet SESSION_IDEAL_DURATION_MAP "project" 60 = 120 ∧
     dictGet SESSION_IDEAL_DURATION_MAP "quiz" 60 = 60 ∧
     dictGet SESSION_IDEAL_DURATION_MAP "assignment" 60 = 60 ∧
     dictGet SESSION_IDEAL_DURATION_MAP "seatwork" 60 = 30)
    ∧ (∀ t : String,
       t ∉ ["exam", "project", "quiz", "assignment", "seatwork", "default"] →
       dictGet SESSION_IDEAL_DURATION_MAP t 60 = 60)
    ∧ (∀ (ud : UserData) (target : Item) (dl : DateTime) (days : List String)
       (sT eT : String) (now : DateTime) (L : List PlanBlock) (N : List Note),
       generate_recurring_blocks ud target dl days sT eT now = .ok (L, N) →
       ∀ b ∈ L, ∃ bs be : Nat,
         parseClock sT = some bs ∧ parseClock eT = some be ∧
         b.end_time - b.start_time =
           min ((be : Int) - (bs : Int))
             ((dictGet SESSION_IDEAL_DURATION_MAP
               (target.task_type.getD (target.test_type.getD "default")) 60
                 : Nat) : Int) ∧
         (((dictGet SESSION_IDEAL_DURATION_MAP
             (target.task_type.getD (target.test_type.getD "default")) 60
               : Nat) : Int) < (be : Int) - (bs : Int) →
           b.end_time = b.start_time +
             ((dictGet SESSION_IDEAL_DURATION_MAP
               (target.task_type.getD (target.test_type.getD "default")) 60
                 : Nat) : Int) ∧
           Note.capped b.date
             ((dictGet SESSION_IDEAL_DURATION_MAP
               (target.task_type.getD (target.test_type.getD "default")) 60
                 : Nat) : Int)
             (target.task_type.getD (target.test_type.getD "default")) ∈ N))
    ∧ (∀ (ud : UserData) (target : Item) (dl : DateTime) (days : List String)
       (sT eT : String) (now : DateTime) (L : List PlanBlock) (N : List Note),
       generate_recurring_blocks ud target dl days sT eT now = .ok (L, N) →
       L.Pairwise (fun a b => a.date < b.date)) := by
  refine ⟨⟨by decide, by decide, by decide, by decide, by decide⟩, ?_, ?_, ?_⟩
  · intro t ht
    have hf : SESSION_IDEAL_DURATION_MAP.find? (fun p => p.1 == t) = none := by
      rw [List.find?_eq_none]
      intro p hp hbeq
      apply ht
      have hpt : p.1 = t := eq_of_beq hbeq
      rw [← hpt]
      simp only [SESSION_IDEAL_DURATION_MAP, List.mem_cons,
        List.not_mem_nil, or_false] at hp
      rcases hp with rfl | rfl | rfl | rfl | rfl | rfl <;> simp
    rw [dictGet, hf]
    rfl
  · intro ud target dl days sT eT now L N h b hb
    rw [generate_eq] at h
    obtain ⟨d, hd, Ld, Nd, hpd, hbL⟩ :=
      genLoop_ok_mem _ _ _ _ _ _ _ _ _ _ _ h hb
    rcases processDay_ok_shape _ _ _ _ _ _ _ _ _ _ _ hpd with
      hLd | ⟨bs, be, hps, hpe, _, _, _, hLd, hNd⟩
    · rw [hLd] at hbL; cases hbL
    · rw [hLd] at hbL
      have hbeq := List.mem_singleton.mp hbL
      subst hbeq
      refine ⟨bs, be, hps, hpe, ?_, ?_⟩
      · simp only [emittedBlock]
        exact add_sub_cancel_left _ _
      · intro hcap
        have hmin : min ((be : Int) - (bs : Int))
            ((dictGet SESSION_IDEAL_DURATION_MAP
              (target.task_type.getD (target.test_type.getD "default")) 60
                : Nat) : Int) =
            ((dictGet SESSION_IDEAL_DURATION_MAP
              (target.task_type.getD (target.test_type.getD "default")) 60
                : Nat) : Int) := min_eq_right hcap.le
        constructor
        · simp only [emittedBlock]
          rw [hmin]
        · have hNd' : Nd = [Note.capped d
              ((dictGet SESSION_IDEAL_DURATION_MAP
                (target.task_type.getD (target.test_type.getD "default")) 60
                  : Nat) : Int)
              (target.task_type.getD (target.test_type.getD "default"))] := by
            rw [hNd, if_pos (by rw [hmin]; exact hcap), hmin]
          refine genLoop_notes_mem _ _ _ _ _ _ _ _ _ _ _ h hd hpd ?_
          rw [hNd']
          exact List.mem_singleton.mpr (by rfl)
  · intro ud target dl days sT eT now L N h
    rw [generate_eq] at h
    exact genLoop_pairwise_dates _ _ _ _ _ _ _ _ _ _ _
      (List.pairwise_lt_range' _ _) h

/-- A stored seatwork item "Reading" due 2026-10-16 (ideal cap 30
minutes). -/
def readingItem : Item := ⟨"Reading", some "2026-10-16", none, some "seatwork", none⟩

/-- A user owning only the Reading seatwork. -/
def capUD : UserData := ⟨[readingItem], [], [], []⟩

/-- The truncated block produced for the 3-hour seatwork request. -/
def capBlock : PlanBlock := ⟨739903, 1080, 1110, "Work on Reading", false⟩

/-- Witness for C5 at a concrete input: a 3-hour window for a seatwork
item yields a 30-minute block plus a capping note. -/
theorem C5_witness :
    generate_recurring_blocks capUD readingItem exDeadline ["Wednesday"]
      "18:00" "21:00" exNow =
      .ok ([capBlock], [Note.capped 739903 30 "seatwork"]) ∧
    (∃ bs be : Nat,
      parseClock "18:00" = some bs ∧ parseClock "21:00" = some be ∧
      capBlock.end_time - capBlock.start_time =
        min ((be : Int) - (bs : Int))
          ((dictGet SESSION_IDEAL_DURATION_MAP
            (readingItem.task_type.getD (readingItem.test_type.getD "default"))
              60 : Nat) : Int) ∧
      (((dictGet SESSION_IDEAL_DURATION_MAP
          (readingItem.task_type.getD (readingItem.test_type.getD "default"))
            60 : Nat) : Int) < (be : Int) - (bs : Int) →
        capBlock.end_time = capBlock.start_time +
          ((dictGet SESSION_IDEAL_DURATION_MAP
            (readingItem.task_type.getD (readingItem.test_type.getD "default"))
              60 : Nat) : Int) ∧
        Note.capped capBlock.date
          ((dictGet SESSION_IDEAL_DURATION_MAP
            (readingItem.task_type.getD (readingItem.test_type.getD "default"))
              60 : Nat) : Int)
          (readingItem.task_type.getD (readingItem.test_type.getD "default")) ∈
          [Note.capped 739903 30 "seatwork"])) :=
  ⟨by decide,
   C5_session_cap.2.2.1 capUD readingItem exDeadline ["Wednesday"]
     "18:00" "21:00" exNow [capBlock] [Note.capped 739903 30 "seatwork"]
     (by decide) capBlock (by decide)⟩

/-! ## C6 -/

/-- A stored task whose deadline (2020-01-01, ordinal 737425) is years
before "now". -/
def oldItem : Item := ⟨"Old Essay", some "2020-01-01", none, some "assignment", none⟩

/-- A user owning only the long-overdue task. -/
def oldUD : UserData := ⟨[oldItem], [], [], []⟩

/-- C6 fails on the code: `_build_work_queue` performs no deadline
filtering at all — a record whose deadline is strictly before "now"
still appears in the returned queue, and the queue does not depend on
`now` in any way. -/
theorem C6_past_deadline_item_in_queue :
    build_work_queue oldUD exNow =
      [⟨"Old Essay", ⟨737425, 86399⟩, some "assignment"⟩] ∧
    dtBefore (⟨737425, 86399⟩ : DateTime) exNow = true ∧
    ∀ (ud : UserData) (now now' : DateTime),
      build_work_queue ud now = build_work_queue ud now' :=
  ⟨by decide, by decide, fun _ _ _ => rfl⟩

/-! ## C7 -/

/-- C7: when no stored task or test matches the requested item name
under case-insensitive comparison, the call returns an error status
whose message reports the item as not found, and the stored plan is
returned unchanged (no write happens). -/
theorem C7_unknown_item_error (ud : UserData) (args : Args) (now : DateTime)
    (hnone : (ud.tasks ++ ud.tests).find?
      (fun item => strLower item.name == strLower args.item_name) = none) :
    schedule_recurring_blocks ud args now =
      .ok (⟨.error, .notFound args.item_name⟩, ud.generated_plan) := by
  simp only [schedule_recurring_blocks, hnone]

/-- Witness for C7 at a concrete input. -/
theorem C7_witness :
    ((exUD.tasks ++ exUD.tests).find?
      (fun item => strLower item.name == strLower "Ghost") = none) ∧
    schedule_recurring_blocks exUD ⟨"Ghost", [], "10:00", "11:00"⟩ exNow =
      .ok (⟨.error, .notFound "Ghost"⟩, exUD.generated_plan) :=
  ⟨by decide,
   C7_unknown_item_error exUD ⟨"Ghost", [], "10:00", "11:00"⟩ exNow (by decide)⟩

/-! ## C8 -/

/-- C8 fails on the code: a malformed start-time string reaches the
unprotected `time.fromisoformat` call on the first requested day, and
the resulting `ValueError` escapes `schedule_recurring_blocks`
uncaught (modelled by `.error`), instead of producing a status/message
result. -/
theorem C8_uncaught_exception :
    schedule_recurring_blocks exUD ⟨"Essay", ["Wednesday"], "banana", "10:00"⟩
      exNow = .error () ∧
    parseClock "banana" = none :=
  ⟨by decide, by decide⟩

/-! ## C10 -/

/-- C10: for an existing item whose requested weekday set matches no
walked day before the deadline, the call succeeds while the stored
blocks labeled for the item are removed and nothing is appended: the
item's existing study blocks are silently erased. -/
theorem C10_no_matching_days_erases (ud : UserData) (args : Args)
    (now : DateTime) (target : Item) (dl : DateTime)
    (hfind : (ud.tasks ++ ud.tests).find?
      (fun item => strLower item.name == strLower args.item_name) = some target)
    (hdl : parseItemDeadline target = some dl)
    (hnd : ∀ d ∈ List.range' now.day (dl.day - now.day),
      weekdayIdx d ∉ args.days.filterMap dayMapToIndex) :
    schedule_recurring_blocks ud args now =
      .ok (⟨.success, .scheduled args.item_name⟩,
        ud.generated_plan.filter
          (fun p => p.task != workLabel args.item_name)) := by
  have hgen : generate_recurring_blocks ud target dl args.days
      args.start_time args.end_time now = .ok ([], []) := by
    rw [generate_eq]
    exact genLoop_skip_all _ _ _ _ _ _ _ _ _ _ _ hnd
  simp only [schedule_recurring_blocks, hfind, hdl, hgen, List.append_nil]
  simp

/-- A stored block of a different item, which must survive. -/
def otherBlock : PlanBlock := ⟨739903, 600, 660, "Work on Other", false⟩

/-- The Essay user with stored blocks for the Essay and for another
item. -/
def planUD : UserData := ⟨[essayItem], [], [], [exBlock, otherBlock]⟩

/-- Witness for C10 at a concrete input: registering the Essay with the
unrecognized day name "Funday" succeeds and erases the Essay's stored
block, keeping the other item's block. -/
theorem C10_witness :
    ((planUD.tasks ++ planUD.tests).find?
      (fun item => strLower item.name == strLower "Essay") = some essayItem) ∧
    parseItemDeadline essayItem = some exDeadline ∧
    (∀ d ∈ List.range' exNow.day (exDeadline.day - exNow.day),
      weekdayIdx d ∉ (["Funday"].filterMap dayMapToIndex)) ∧
    schedule_recurring_blocks planUD ⟨"Essay", ["Funday"], "18:00", "19:00"⟩
      exNow =
      .ok (⟨.success, .scheduled "Essay"⟩,
        planUD.generated_plan.filter
          (fun p => p.task != workLabel "Essay")) ∧
    planUD.generated_plan.filter (fun p => p.task != workLabel "Essay") =
      [otherBlock] :=
  ⟨by decide, by decide, by decide,
   C10_no_matching_days_erases planUD ⟨"Essay", ["Funday"], "18:00", "19:00"⟩
     exNow essayItem exDeadline (by decide) (by decide) (by decide),
   by decide⟩

/-! ## C9 -/

/-- C9 (amended): `_time_to_minutes` maps every well-formed HH:MM
clock string to minutes since midnight; it also accepts the other ISO
time forms (`HH`, `HH:MM:SS`, fractional seconds, offset suffixes),
returning `hour * 60 + minute` with seconds and beyond dropped; it
returns 0 exactly on the strings the ISO time parser rejects (the
`ValueError` path), and — being a total function — never raises. Every
HH:MM rendering has length 5, so inputs of other lengths (such as the
counterexample "23:59:59") are not HH:MM clock strings. -/
theorem C9_time_to_minutes_iso :
    (∀ h m : Nat, h ≤ 23 → m ≤ 59 →
      time_to_minutes (formatHHMM h m) = 60 * h + m) ∧
    (∀ h m : Nat, (formatHHMM h m).length = 5) ∧
    (∀ (s : String) (t : PyTime), time_fromisoformat s = some t →
      time_to_minutes s = t.hour * 60 + t.minute) ∧
    (∀ s : String, time_fromisoformat s = none → time_to_minutes s = 0) := by
  refine ⟨?_, ?_, ?_, ?_⟩
  · intro h m hh hm
    rw [time_to_minutes_of_parse (parseClock_format h m hh hm)]
  · intro h m
    rfl
  · intro s t h
    simp only [time_to_minutes, h]
  · intro s h
    simp only [time_to_minutes, h]

/-- Counterexample to C9 as stated: "23:59:59" is not an HH:MM clock
string (its length is 8, while every HH:MM rendering has length 5),
yet `_time_to_minutes` returns 1439 for it, not 0 — the seconds-bearing
ISO form parses and only its seconds are dropped. -/
theorem C9_counterexample :
    time_to_minutes "23:59:59" = 1439 ∧
    ("23:59:59" : String).length = 8 ∧
    (1439 : Nat) ≠ 0 :=
  ⟨by decide, by decide, by decide⟩

/-- Witness for the amended C9 at concrete inputs: "09:30" gives 570,
the hour-only form "07" gives 420, and the rejected "banana" gives 0. -/
theorem C9_witness :
    time_to_minutes (formatHHMM 9 30) = 60 * 9 + 30 ∧
    time_to_minutes "07" = (⟨7, 0, 0, 0⟩ : PyTime).hour * 60 +
      (⟨7, 0, 0, 0⟩ : PyTime).minute ∧
    time_to_minutes "banana" = 0 :=
  ⟨C9_time_to_minutes_iso.1 9 30 (by decide) (by decide),
   C9_time_to_minutes_iso.2.2.1 "07" ⟨7, 0, 0, 0⟩ (by decide),
   C9_time_to_minutes_iso.2.2.2 "banana" (by decide)⟩

end SmartSchedule
